import Mathlib

/-!
Verification of the SSMP server (`ssmp_server.py`): a shallow embedding of
the frame codec, the key-value store and the per-request command dispatch
of `handle_client`, together with proofs of the spec's testable properties.

Modelling conventions:
* Bytes are `Nat` (each byte the source produces is `< 256`); a byte string
  is a `List Nat`.
* Decoded JSON values (`json.loads` output) are `JVal`; JSON numbers are
  restricted to integers, the only numbers the protocol ever produces or
  that any property here exercises.
* `json.loads` / `json.dumps` are Python-stdlib collaborators, so the
  handler model takes the decoder as a function parameter and the frame
  encoder takes the serializer as a function parameter.
* A Python statement that raises an exception not caught by the handler is
  modelled by the explicit outcome `DOut.exn` / `StepResult.crash`; the
  real handler thread then closes the connection without a response.
-/

/-- A decoded JSON value, as returned by `json.loads`.  Numbers are
modelled as integers (see module comment). -/
inductive JVal where
  | jnull
  | jbool (b : Bool)
  | jnum (n : Int)
  | jstr (s : String)
  | jarr (xs : List JVal)
  | jobj (kvs : List (String × JVal))

/-- `True` exactly for the values Python can use as `dict` keys: `list`
and `dict` are unhashable, and `self._data[key] = value` (or `key in
self._data`, `self._data.get(key)`, `del self._data[key]`) raises
`TypeError` on them before touching the mapping. -/
def JVal.hashable : JVal → Bool
  | .jarr _ => false
  | .jobj _ => false
  | _ => true

/-- Python `==` on the hashable JSON values (the only values that can
reach a dict-key comparison).  Python's numeric cross-type equalities
(`True == 1`) are not modelled; no property here exercises them. -/
def JVal.keyEq : JVal → JVal → Bool
  | .jnull, .jnull => true
  | .jbool a, .jbool b => a == b
  | .jnum a, .jnum b => a == b
  | .jstr a, .jstr b => a == b
  | _, _ => false

/-- `True` exactly on `jnull`; models Python's `value is None` test. -/
def JVal.isNull : JVal → Bool
  | .jnull => true
  | _ => false

/-- `True` exactly on strings. -/
def JVal.isStr : JVal → Bool
  | .jstr _ => true
  | _ => false

/-- Python `str.upper()` restricted to its ASCII case mapping.  On
strings of ASCII characters this agrees exactly with Python; Python's
full Unicode case mappings (for example U+0131 ı → I, U+017F ſ → S) are
not modelled, so every statement here that quantifies over the command
token restricts it to ASCII (the literal command tokens used elsewhere
are all ASCII). -/
def upChar (c : Char) : Char :=
  if 'a' ≤ c && c ≤ 'z' then Char.ofNat (c.toNat - 32) else c

/-- Uppercasing of a command token, `command_list[0].upper()`. -/
def upStr (s : String) : String := ⟨s.data.map upChar⟩

/-- Lookup in the association-list model of the Python `dict`
`self._data`: the value of the first entry whose key compares equal. -/
def dictLookup : List (JVal × JVal) → JVal → Option JVal
  | [], _ => none
  | (k', v') :: rest, k => if JVal.keyEq k' k then some v' else dictLookup rest k

/-- `self._data[key] = value`: update the entry whose key compares equal,
keeping the original key object, else append a new entry (Python dicts
keep insertion order). -/
def dictSet : List (JVal × JVal) → JVal → JVal → List (JVal × JVal)
  | [], k, v => [(k, v)]
  | (k', v') :: rest, k, v =>
      if JVal.keyEq k' k then (k', v) :: rest else (k', v') :: dictSet rest k v

/-- `del self._data[key]`: remove the entry whose key compares equal. -/
def dictErase : List (JVal × JVal) → JVal → List (JVal × JVal)
  | [], _ => []
  | (k', v') :: rest, k => if JVal.keyEq k' k then rest else (k', v') :: dictErase rest k

/-- The well-formedness every real Python dict has: all keys hashable and
pairwise distinct.  Association lists outside this set do not represent a
dict state. -/
def dictWF : List (JVal × JVal) → Bool
  | [] => true
  | (k, _) :: rest => JVal.hashable k && (dictLookup rest k).isNone && dictWF rest

/-- The `KeyValueStore` of `ssmp_server.py`: `self._data` modelled as an
insertion-ordered association list.  The `threading.Lock` makes each
method atomic; each method is therefore modelled as one pure transition. -/
structure KeyValueStore where
  data : List (JVal × JVal)

/-- `KeyValueStore.set`: unconditionally insert or overwrite. -/
def KeyValueStore.set (st : KeyValueStore) (k v : JVal) : KeyValueStore :=
  ⟨dictSet st.data k v⟩

/-- `KeyValueStore.get`: `self._data.get(key)` — the stored value, or
`None` (`jnull`) when the key is absent. -/
def KeyValueStore.get (st : KeyValueStore) (k : JVal) : JVal :=
  (dictLookup st.data k).getD .jnull

/-- `KeyValueStore.delete`: remove the key if present; the count of
removed keys (1 or 0) paired with the resulting store. -/
def KeyValueStore.delete (st : KeyValueStore) (k : JVal) : Int × KeyValueStore :=
  if (dictLookup st.data k).isSome then (1, ⟨dictErase st.data k⟩) else (0, st)

/-- `KeyValueStore.exists`: 1 if the key is present, else 0. -/
def KeyValueStore.exists (st : KeyValueStore) (k : JVal) : Int :=
  if (dictLookup st.data k).isSome then 1 else 0

/-- Outcome of the command-processing section of `handle_client`
(lines 78–102): a response to send with the store afterwards, or an
uncaught exception (the store at the moment of the raise). -/
inductive DOut where
  | resp (st : KeyValueStore) (r : List JVal)
  | exn (st : KeyValueStore)

/-- The command dispatch of `handle_client` on a decoded non-empty list
`first :: args`:
`command = command_list[0].upper()` (an `AttributeError` — uncaught — if
`first` is not a string), then the `if/elif` chain on
`(command, len(args))`.  Note the source checks no arity for `PING`. -/
def handle_command (st : KeyValueStore) (first : JVal) (args : List JVal) : DOut :=
  match first with
  | .jstr s =>
    let command := upStr s
    -- `args[i]` is written `args.getD i .jnull`; every access is guarded
    -- by the arity conjunct, under which the default is never used.
    if command = "PING" then .resp st [.jstr "OK", .jstr "PONG"]
    else if command = "SET" ∧ args.length = 2 then
      let k := args.getD 0 .jnull
      let v := args.getD 1 .jnull
      if k.hashable then .resp (st.set k v) [.jstr "OK"] else .exn st
    else if command = "GET" ∧ args.length = 1 then
      let k := args.getD 0 .jnull
      if k.hashable then
        let value := st.get k
        if !value.isNull then .resp st [.jstr "OK", value]
        else .resp st [.jstr "ERR", .jstr "NOT_FOUND"]
      else .exn st
    else if command = "DEL" ∧ args.length = 1 then
      let k := args.getD 0 .jnull
      if k.hashable then
        let r := st.delete k
        .resp r.2 [.jstr "OK", .jnum r.1]
      else .exn st
    else if command = "EXISTS" ∧ args.length = 1 then
      let k := args.getD 0 .jnull
      if k.hashable then .resp st [.jstr "OK", .jnum (st.exists k)] else .exn st
    else .resp st [.jstr "ERR", .jstr "UNKNOWN_COMMAND"]
  | _ => .exn st

/-- Big-endian 4-byte encoding, `struct.pack("!I", n)` (which raises for
`n ≥ 2^32`; all stated properties assume the in-range case). -/
def toBE4 (n : Nat) : List Nat :=
  [n / 2 ^ 24 % 256, n / 2 ^ 16 % 256, n / 2 ^ 8 % 256, n % 256]

/-- Big-endian decoding of a 4-byte header, `struct.unpack("!I", h)[0]`. -/
def fromBE4 : List Nat → Nat
  | [b0, b1, b2, b3] => b0 * 2 ^ 24 + b1 * 2 ^ 16 + b2 * 2 ^ 8 + b3
  | _ => 0

/-- `pack_message`, parametric in the external serializer `json.dumps` +
UTF-8 encoding: length header followed by the serialized payload. -/
def pack_message (dumps : JVal → List Nat) (data : JVal) : List Nat :=
  toBE4 (dumps data).length ++ dumps data

/-- Result of one iteration of the `handle_client` loop on a connection's
pending input bytes: loop exit via `break` (connection then closed, no
response for this frame), one response sent and the loop continued on the
remaining bytes, or an uncaught exception (connection closed, no
response). -/
inductive StepResult where
  | close (st : KeyValueStore)
  | reply (st : KeyValueStore) (r : List JVal) (rest : List Nat)
  | crash (st : KeyValueStore)

/-- One iteration of the `handle_client` loop (lines 54–105), parametric
in the external decoder `decode` (UTF-8 decoding + `json.loads`, `none`
when either raises).  `read_fully` on a socket holding `input` yields
`None` exactly when fewer bytes than requested remain, and otherwise the
requested prefix; note `if not payload: break` also fires on an *empty*
(zero-length) payload, not only on `None`. -/
def handle_client_step (decode : List Nat → Option JVal) (st : KeyValueStore)
    (input : List Nat) : StepResult :=
  if input.length < 4 then .close st
  else
    let n := fromBE4 (input.take 4)
    let rest := input.drop 4
    if rest.length < n then .close st
    else
      let payload := rest.take n
      if payload = [] then .close st
      else
        match decode payload with
        | none => .reply st [.jstr "ERR", .jstr "INVALID_PAYLOAD"] (rest.drop n)
        | some v =>
          match v with
          | .jarr (first :: args) =>
            match handle_command st first args with
            | .resp st' r => .reply st' r (rest.drop n)
            | .exn st' => .crash st'
          | _ => .reply st [.jstr "ERR", .jstr "INVALID_PAYLOAD"] (rest.drop n)

/-- Every key and value of the mapping is a string. -/
def allStrings (st : KeyValueStore) : Bool :=
  st.data.all fun p => p.1.isStr && p.2.isStr

theorem JVal.keyEq_eq {a b : JVal} (h : JVal.keyEq a b = true) : a = b := by
  cases a <;> cases b <;> simp_all [JVal.keyEq]

theorem JVal.keyEq_self {a : JVal} (h : a.hashable = true) : JVal.keyEq a a = true := by
  cases a <;> simp_all [JVal.keyEq, JVal.hashable]

theorem dictLookup_set_self (d : List (JVal × JVal)) (k v : JVal)
    (hk : k.hashable = true) : dictLookup (dictSet d k v) k = some v := by
  induction d with
  | nil => simp [dictSet, dictLookup, JVal.keyEq_self hk]
  | cons p rest ih =>
    obtain ⟨k', v'⟩ := p
    by_cases h : JVal.keyEq k' k = true
    · simp [dictSet, dictLookup, h]
    · simp [dictSet, dictLookup, h, ih]

theorem dictLookup_erase_self (d : List (JVal × JVal)) (k : JVal)
    (hwf : dictWF d = true) : dictLookup (dictErase d k) k = none := by
  induction d with
  | nil => simp [dictErase, dictLookup]
  | cons p rest ih =>
    obtain ⟨k', v'⟩ := p
    simp only [dictWF, Bool.and_eq_true, Option.isNone_iff_eq_none] at hwf
    by_cases h : JVal.keyEq k' k = true
    · have : k' = k := JVal.keyEq_eq h
      subst this
      simpa [dictErase, h] using hwf.1.2
    · simp [dictErase, dictLookup, h, ih hwf.2]

theorem dictErase_absent (d : List (JVal × JVal)) (k : JVal)
    (h : dictLookup d k = none) : dictErase d k = d := by
  induction d with
  | nil => rfl
  | cons p rest ih =>
    obtain ⟨k', v'⟩ := p
    by_cases hk : JVal.keyEq k' k = true
    · simp [dictLookup, hk] at h
    · simp only [dictLookup, hk, if_neg] at h
      simp [dictErase, hk, ih h]

/-- C1: for any store and any strings `k`, `v` (the empty string and
strings with control characters included), `SET k v` responds `["OK"]`
and updates the store, and `GET k` on the updated store responds
`["OK", v]`. -/
theorem set_then_get (st : KeyValueStore) (k v : String) :
    handle_command st (.jstr "SET") [.jstr k, .jstr v]
      = .resp (st.set (.jstr k) (.jstr v)) [.jstr "OK"] ∧
    handle_command (st.set (.jstr k) (.jstr v)) (.jstr "GET") [.jstr k]
      = .resp (st.set (.jstr k) (.jstr v)) [.jstr "OK", .jstr v] := by
  constructor
  · rfl
  · have hl : dictLookup (dictSet st.data (.jstr k) (.jstr v)) (.jstr k)
        = some (.jstr v) := dictLookup_set_self st.data _ _ rfl
    simp [handle_command, show upStr "GET" = "GET" from rfl, KeyValueStore.get,
      KeyValueStore.set, hl, JVal.hashable, JVal.isNull]

/-- C7: `GET k` on a key absent from the store responds exactly
`["ERR","NOT_FOUND"]`, leaving the store unchanged. -/
theorem get_absent (st : KeyValueStore) (k : String)
    (h : dictLookup st.data (.jstr k) = none) :
    handle_command st (.jstr "GET") [.jstr k]
      = .resp st [.jstr "ERR", .jstr "NOT_FOUND"] := by
  simp [handle_command, show upStr "GET" = "GET" from rfl, KeyValueStore.get, h,
    JVal.hashable, JVal.isNull]

/-- C7 witness: the empty store at key `"x"`. -/
theorem get_absent_witness :
    handle_command ⟨[]⟩ (.jstr "GET") [.jstr "x"]
      = .resp ⟨[]⟩ [.jstr "ERR", .jstr "NOT_FOUND"] :=
  get_absent ⟨[]⟩ "x" rfl

/-- C10: after `["SET", k, null]` the response is `["OK"]` and the store
holds `null` at `k`; `GET k` then responds `["ERR","NOT_FOUND"]` (GET
encodes absence as the `None` value) while `EXISTS k` responds
`["OK", 1]` (EXISTS tests key membership). -/
theorem set_null_get_exists (st : KeyValueStore) (k : String) :
    handle_command st (.jstr "SET") [.jstr k, .jnull]
      = .resp (st.set (.jstr k) .jnull) [.jstr "OK"] ∧
    handle_command (st.set (.jstr k) .jnull) (.jstr "GET") [.jstr k]
      = .resp (st.set (.jstr k) .jnull) [.jstr "ERR", .jstr "NOT_FOUND"] ∧
    handle_command (st.set (.jstr k) .jnull) (.jstr "EXISTS") [.jstr k]
      = .resp (st.set (.jstr k) .jnull) [.jstr "OK", .jnum 1] := by
  have hl : dictLookup (dictSet st.data (.jstr k) .jnull) (.jstr k)
      = some .jnull := dictLookup_set_self st.data _ _ rfl
  refine ⟨rfl, ?_, ?_⟩
  · simp [handle_command, show upStr "GET" = "GET" from rfl, KeyValueStore.get,
      KeyValueStore.set, hl, JVal.hashable, JVal.isNull]
  · simp [handle_command, show upStr "EXISTS" = "EXISTS" from rfl, KeyValueStore.exists,
      KeyValueStore.set, hl, JVal.hashable]

/-- C6: `DEL k` on an absent key responds `["OK", 0]` and leaves the
store unchanged; on a present key it responds `["OK", 1]`, removes the
key, and a subsequent `EXISTS k` responds `["OK", 0]`.  The store is
assumed well formed, as every real dict state is. -/
theorem del_semantics (st : KeyValueStore) (k : String)
    (hwf : dictWF st.data = true) :
    (st.exists (.jstr k) = 0 →
       handle_command st (.jstr "DEL") [.jstr k] = .resp st [.jstr "OK", .jnum 0]) ∧
    (st.exists (.jstr k) = 1 →
       handle_command st (.jstr "DEL") [.jstr k]
         = .resp (st.delete (.jstr k)).2 [.jstr "OK", .jnum 1] ∧
       handle_command (st.delete (.jstr k)).2 (.jstr "EXISTS") [.jstr k]
         = .resp (st.delete (.jstr k)).2 [.jstr "OK", .jnum 0]) := by
  constructor
  · intro h
    cases hd : dictLookup st.data (.jstr k) with
    | none =>
        simp [handle_command, show upStr "DEL" = "DEL" from rfl, KeyValueStore.delete,
          hd, JVal.hashable]
    | some v => simp [KeyValueStore.exists, hd] at h
  · intro h
    cases hd : dictLookup st.data (.jstr k) with
    | none => simp [KeyValueStore.exists, hd] at h
    | some v =>
        have hdel : st.delete (.jstr k) = (1, ⟨dictErase st.data (.jstr k)⟩) := by
          simp [KeyValueStore.delete, hd]
        have herase : dictLookup (dictErase st.data (.jstr k)) (.jstr k) = none :=
          dictLookup_erase_self st.data (.jstr k) hwf
        constructor
        · simp [handle_command, show upStr "DEL" = "DEL" from rfl, hdel, JVal.hashable]
        · simp [handle_command, show upStr "EXISTS" = "EXISTS" from rfl, hdel,
            KeyValueStore.exists, herase, JVal.hashable]

/-- C6 witness: store `{"a": "b"}`, key `"a"` present, key `"x"` absent
is exercised through the absent branch separately. -/
theorem del_semantics_witness :
    handle_command ⟨[(.jstr "a", .jstr "b")]⟩ (.jstr "DEL") [.jstr "a"]
      = .resp ((⟨[(.jstr "a", .jstr "b")]⟩ : KeyValueStore).delete (.jstr "a")).2
          [.jstr "OK", .jnum 1] :=
  ((del_semantics ⟨[(.jstr "a", .jstr "b")]⟩ "a" (by decide)).2 (by decide)).1

/-- C5: the encoded frame is a 4-byte big-endian length header holding
exactly the serialized payload's byte length, followed by that payload;
reading the header back and taking that many following bytes reproduces
the payload and its length, whenever the payload is shorter than 2^32
bytes. -/
theorem framing_roundtrip (dumps : JVal → List Nat) (data : JVal)
    (h : (dumps data).length < 2 ^ 32) :
    fromBE4 ((pack_message dumps data).take 4) = (dumps data).length ∧
    ((pack_message dumps data).drop 4).take (fromBE4 ((pack_message dumps data).take 4))
      = dumps data ∧
    (((pack_message dumps data).drop 4).take
        (fromBE4 ((pack_message dumps data).take 4))).length = (dumps data).length := by
  have hhead : fromBE4 ((pack_message dumps data).take 4) = (dumps data).length := by
    simp only [pack_message, toBE4]
    simp only [List.cons_append, List.nil_append, List.take_succ_cons, List.take_zero,
      fromBE4]
    omega
  have hdrop : (pack_message dumps data).drop 4 = dumps data := by
    simp [pack_message, toBE4]
  refine ⟨hhead, ?_, ?_⟩
  · rw [hhead, hdrop, List.take_length]
  · rw [hhead, hdrop, List.take_length]

/-- C5 witness: a two-byte payload. -/
theorem framing_roundtrip_witness :
    fromBE4 ((pack_message (fun _ => [91, 93]) .jnull).take 4) = 2 ∧
    ((pack_message (fun _ => [91, 93]) .jnull).drop 4).take
        (fromBE4 ((pack_message (fun _ => [91, 93]) .jnull).take 4)) = [91, 93] ∧
    (((pack_message (fun _ => [91, 93]) .jnull).drop 4).take
        (fromBE4 ((pack_message (fun _ => [91, 93]) .jnull).take 4))).length = 2 :=
  framing_roundtrip (fun _ => [91, 93]) .jnull (by decide)

/-- C3: a frame declaring payload length 0 — whose empty payload is
trivially complete and could never decode — makes the handler loop
`break` and the connection close with no response, for every decoder,
store and remaining input: `if not payload` is true for the empty byte
string as well as for the `None` that signals EOF, so the claimed
`["ERR","INVALID_PAYLOAD"]` reply is never produced and the next frame is
never read. -/
theorem zero_length_frame_closes (decode : List Nat → Option JVal)
    (st : KeyValueStore) (tail : List Nat) :
    handle_client_step decode st (0 :: 0 :: 0 :: 0 :: tail) = .close st := by
  simp [handle_client_step, fromBE4]

theorem handle_command_err_unchanged (st st' : KeyValueStore) (first : JVal)
    (args : List JVal) (r : List JVal)
    (h : handle_command st first args = .resp st' r)
    (herr : r.head? = some (.jstr "ERR")) : st' = st := by
  cases first <;> simp only [handle_command] at h
  case jstr s =>
    split_ifs at h <;>
      first
        | (cases h; rfl)
        | (cases h; simp_all)
  all_goals cases h

/-- C8: whenever one loop iteration of `handle_client` sends a response
whose status token is `"ERR"` (unknown command, wrong arity, key not
found, invalid payload), the store after the iteration is the store
before it. -/
theorem err_reply_preserves_store (decode : List Nat → Option JVal)
    (st st' : KeyValueStore) (input rest : List Nat) (r : List JVal)
    (h : handle_client_step decode st input = .reply st' r rest)
    (herr : r.head? = some (.jstr "ERR")) : st' = st := by
  simp only [handle_client_step] at h
  split at h
  · cases h
  · split at h
    · cases h
    · split at h
      · cases h
      · split at h
        · cases h
          rfl
        · split at h
          · split at h
            · cases h
              rename_i hc
              exact handle_command_err_unchanged _ _ _ _ _ hc herr
            · cases h
          · cases h
            rfl

/-- C8 witness: an undecodable one-byte payload answered by
`["ERR","INVALID_PAYLOAD"]`. -/
theorem err_reply_preserves_store_witness : (⟨[]⟩ : KeyValueStore) = ⟨[]⟩ :=
  err_reply_preserves_store (fun _ => none) ⟨[]⟩ ⟨[]⟩ [0, 0, 0, 1, 65] []
    [.jstr "ERR", .jstr "INVALID_PAYLOAD"] rfl rfl

/-- C4 counterexample: the complete payload `[1]` (bytes `91 49 93`)
decodes to a non-empty JSON list whose first element is a number; the
claimed reply is `["ERR","INVALID_PAYLOAD"]`, but `command_list[0]
.upper()` raises an uncaught `AttributeError`, so the iteration ends in a
crash — connection terminated, no response. -/
theorem nonstring_command_crashes :
    handle_client_step
        (fun bs => if bs = [91, 49, 93] then some (.jarr [.jnum 1]) else none)
        ⟨[]⟩ [0, 0, 0, 3, 91, 49, 93] = .crash ⟨[]⟩ ∧
    handle_client_step
        (fun bs => if bs = [91, 49, 93] then some (.jarr [.jnum 1]) else none)
        ⟨[]⟩ [0, 0, 0, 3, 91, 49, 93]
      ≠ .reply ⟨[]⟩ [.jstr "ERR", .jstr "INVALID_PAYLOAD"] [] := by
  refine ⟨rfl, ?_⟩
  intro h
  rw [show handle_client_step
        (fun bs => if bs = [91, 49, 93] then some (.jarr [.jnum 1]) else none)
        ⟨[]⟩ [0, 0, 0, 3, 91, 49, 93] = .crash ⟨[]⟩ from rfl] at h
  simp at h

/-- C4 (amended): a complete, non-empty payload that fails to decode, or
decodes to something other than a JSON list, or to the empty list, is
answered with `["ERR","INVALID_PAYLOAD"]`, the store untouched and the
loop continued on the remaining input.  A payload decoding to a
*non-empty* list is dispatched without validating that its tokens are
strings (see the counterexample: a non-string first token crashes the
connection instead). -/
theorem invalid_payload_reply (decode : List Nat → Option JVal)
    (st : KeyValueStore) (input : List Nat) (h4 : 4 ≤ input.length)
    (hcomp : fromBE4 (input.take 4) ≤ (input.drop 4).length)
    (hpos : 0 < fromBE4 (input.take 4))
    (hshape : ∀ v, decode ((input.drop 4).take (fromBE4 (input.take 4))) = some v →
        ∀ f0 args0, v ≠ .jarr (f0 :: args0)) :
    handle_client_step decode st input
      = .reply st [.jstr "ERR", .jstr "INVALID_PAYLOAD"]
          ((input.drop 4).drop (fromBE4 (input.take 4))) := by
  have hne : (input.drop 4).take (fromBE4 (input.take 4)) ≠ [] := by
    intro he
    have hlen := congrArg List.length he
    rw [List.length_take, List.length_nil] at hlen
    omega
  simp only [handle_client_step]
  rw [if_neg (by omega), if_neg (by omega), if_neg hne]
  rcases hd : decode ((input.drop 4).take (fromBE4 (input.take 4))) with _ | v
  · rfl
  · cases v with
    | jarr xs =>
        cases xs with
        | nil => rfl
        | cons f0 args0 => exact absurd rfl (hshape _ hd f0 args0)
    | jnull => rfl
    | jbool b => rfl
    | jnum n => rfl
    | jstr s => rfl
    | jobj kvs => rfl

/-- C4 witness: a one-byte payload that fails to decode. -/
theorem invalid_payload_reply_witness :
    handle_client_step (fun _ => none) ⟨[]⟩ [0, 0, 0, 1, 65]
      = .reply ⟨[]⟩ [.jstr "ERR", .jstr "INVALID_PAYLOAD"]
          (([0, 0, 0, 1, 65].drop 4).drop (fromBE4 ([0, 0, 0, 1, 65].take 4))) :=
  invalid_payload_reply (fun _ => none) ⟨[]⟩ [0, 0, 0, 1, 65] (by decide) (by decide)
    (by decide) (fun v hv => by cases hv)

/-- C9 counterexample: the decodable wire request `["SET", 1, 2]` — a
non-empty JSON list with the string first token "SET" — stores number
key 1 with number value 2, so the mapping no longer contains only string
keys and string values after dispatch. -/
theorem set_nonstring_breaks_invariant :
    handle_command ⟨[]⟩ (.jstr "SET") [.jnum 1, .jnum 2]
      = .resp ⟨[(.jnum 1, .jnum 2)]⟩ [.jstr "OK"] ∧
    allStrings ⟨[(.jnum 1, .jnum 2)]⟩ = false :=
  ⟨rfl, rfl⟩

theorem allStrings_dictSet (d : List (JVal × JVal)) (k v : JVal)
    (hk : k.isStr = true) (hv : v.isStr = true)
    (h : (d.all fun p => p.1.isStr && p.2.isStr) = true) :
    ((dictSet d k v).all fun p => p.1.isStr && p.2.isStr) = true := by
  induction d with
  | nil => simp [dictSet, hk, hv]
  | cons p rest ih =>
    obtain ⟨k', v'⟩ := p
    simp only [List.all_cons, Bool.and_eq_true] at h
    by_cases hkk : JVal.keyEq k' k = true
    · simp [dictSet, hkk, h.1.1, hv, h.2]
    · simp only [dictSet, hkk, if_neg, Bool.false_eq_true, if_false, List.all_cons,
        Bool.and_eq_true]
      exact ⟨⟨h.1.1, h.1.2⟩, ih h.2⟩

theorem allStrings_dictErase (d : List (JVal × JVal)) (k : JVal)
    (h : (d.all fun p => p.1.isStr && p.2.isStr) = true) :
    ((dictErase d k).all fun p => p.1.isStr && p.2.isStr) = true := by
  induction d with
  | nil => simpa [dictErase] using h
  | cons p rest ih =>
    obtain ⟨k', v'⟩ := p
    simp only [List.all_cons, Bool.and_eq_true] at h
    by_cases hkk : JVal.keyEq k' k = true
    · simp only [dictErase, hkk, if_pos]
      exact List.all_eq_true.mpr fun p hp =>
        (List.all_eq_true.mp h.2) p hp
    · simp only [dictErase, hkk, Bool.false_eq_true, if_false, List.all_cons,
        Bool.and_eq_true]
      exact ⟨⟨h.1.1, h.1.2⟩, ih h.2⟩

/-- C9 (amended): the all-strings store invariant is preserved by the
dispatch of every request all of whose tokens are strings.  The
restriction on the argument tokens is necessary: `SET` stores its two
argument tokens verbatim, so a decodable request with non-string tokens
can break the invariant (see the counterexample). -/
theorem allStrings_preserved (st st' : KeyValueStore) (s : String)
    (args : List JVal) (r : List JVal)
    (hargs : ∀ a ∈ args, a.isStr = true)
    (hinv : allStrings st = true)
    (h : handle_command st (.jstr s) args = .resp st' r) :
    allStrings st' = true := by
  simp only [handle_command] at h
  split_ifs at h with hPING hSET hKSET hGET hKGET hNULL hDEL hKDEL hEX hKEX
  all_goals try cases h
  all_goals try exact hinv
  · -- SET branch
    have hlen := hSET.2
    have hk : (args.getD 0 .jnull).isStr = true := by
      apply hargs
      rw [List.getD_eq_getElem?_getD, List.getElem?_eq_getElem (by omega), Option.getD_some]
      exact List.getElem_mem _
    have hv : (args.getD 1 .jnull).isStr = true := by
      apply hargs
      rw [List.getD_eq_getElem?_getD, List.getElem?_eq_getElem (by omega), Option.getD_some]
      exact List.getElem_mem _
    simpa [allStrings, KeyValueStore.set] using
      allStrings_dictSet st.data _ _ hk hv (by simpa [allStrings] using hinv)
  · -- DEL branch
    simp only [allStrings, KeyValueStore.delete]
    by_cases hs : (dictLookup st.data (args.getD 0 .jnull)).isSome = true
    · simp only [hs, if_pos]
      exact allStrings_dictErase st.data _ (by simpa [allStrings] using hinv)
    · simp only [hs, Bool.false_eq_true, if_false]
      simpa [allStrings] using hinv

/-- C9 witness: `SET a b` on the empty store keeps the invariant. -/
theorem allStrings_preserved_witness : allStrings ⟨[(.jstr "a", .jstr "b")]⟩ = true :=
  allStrings_preserved ⟨[]⟩ ⟨[(.jstr "a", .jstr "b")]⟩ "SET"
    [.jstr "a", .jstr "b"] [.jstr "OK"] (by simp [JVal.isStr]) rfl rfl
